import Mathlib

/-!
Verification of the connector service against its specification.

The development shallowly embeds the relevant parts of the repository:

* `connectors/es/index.py` — the search-index gateway (`ESIndex.get_all_docs`),
* `connectors/sources/gcs.py` — the Google Cloud Storage source adapter,
* the connector/sync-job/feature model of `connectors/byoc.py` and the bulk
  coordinator of `connectors/byoei.py`, which are exercised by the tests in
  the repository but whose module sources are not part of this tree; those
  parts are modelled from the specification text, as flagged on each
  definition.

Network effects are represented by explicit oracles: the refresh call and
the search server are given by their outcomes (a search call may deliver a
page, raise an `ApiError`, or raise a connection-level transport error that
`except ApiError` does not catch), and a Google API call is a function from
the attempt number to that attempt's outcome.  Loops whose termination
depends on server behaviour take an explicit `fuel` bound on the number of
iterations; a run that exhausts its fuel is reported as unfinished, with
the records and requests produced so far.
-/

namespace ES

/-- The `query` argument of `get_all_docs`; the code substitutes
`{"match_all": {}}` (here `matchAll`) when the caller passes `None`. -/
inductive Query where
  | matchAll : Query
  | custom : String → Query
deriving DecidableEq

/-- One search request as issued by the gateway: index name, query,
`from_`/`size` window and the `expand_wildcards` parameter. -/
structure SearchRequest where
  index : String
  query : Query
  from_ : Nat
  size : Nat
  expand_wildcards : String
deriving DecidableEq

/-- What one search call does: deliver a page of hits together with
`hits.total.value`, raise an `ApiError` carrying a status code and a body —
the one exception class the loop catches — or raise a connection-level
transport error, which is not an `ApiError` and is therefore not caught. -/
inductive SearchResp (α : Type) where
  | ok : List α → Nat → SearchResp α
  | apiError : Nat → String → SearchResp α
  | transportError : String → SearchResp α

/-- Outcome of the `indices.refresh` call at the head of `get_all_docs`
(index.py line 53).  The call stands outside the `try` block, so any
exception it raises — `ApiError` and connection-level alike — propagates
to the caller; one error case covers both. -/
inductive RefreshResp where
  | ok : RefreshResp
  | raised : String → RefreshResp

/-- Observable outcome of running `get_all_docs` for a bounded number of
loop iterations: the records yielded so far, the search requests issued so
far, the critical log entry `(status_code, body)` when an `ApiError` was
caught, the exception that escaped to the caller (`none` when none did),
and whether the generator has terminated. -/
structure RunResult (α : Type) where
  records : List α
  requests : List SearchRequest
  errorLog : Option (Nat × String)
  raised : Option String
  finished : Bool
deriving DecidableEq

/-- The `while True` loop of `ESIndex.get_all_docs`: build a search request
at the current offset (always with `expand_wildcards="hidden"`); on a
caught `ApiError` log the status code and body and return; on an uncaught
connection-level transport error the exception escapes with only the
records already yielded; otherwise add the page length to `count`, yield
the hits, stop once `count >= total`, else advance `offset` by the page
length.  `fuel` bounds the number of iterations observed; running out of
fuel reports an unfinished run. -/
def getAllDocsLoop (srv : SearchRequest → SearchResp α) (index_name : String)
    (query : Query) (page_size : Nat) :
    Nat → Nat → Nat → List α → List SearchRequest → RunResult α
  | 0, _, _, acc, reqs => ⟨acc, reqs, none, none, false⟩
  | fuel + 1, count, offset, acc, reqs =>
    match srv ⟨index_name, query, offset, page_size, "hidden"⟩ with
    | .apiError status_code body =>
        ⟨acc, reqs ++ [⟨index_name, query, offset, page_size, "hidden"⟩],
          some (status_code, body), none, true⟩
    | .transportError e =>
        ⟨acc, reqs ++ [⟨index_name, query, offset, page_size, "hidden"⟩],
          none, some e, true⟩
    | .ok hits total =>
        if total ≤ count + hits.length then
          ⟨acc ++ hits, reqs ++ [⟨index_name, query, offset, page_size, "hidden"⟩],
            none, none, true⟩
        else
          getAllDocsLoop srv index_name query page_size fuel (count + hits.length)
            (offset + hits.length) (acc ++ hits)
            (reqs ++ [⟨index_name, query, offset, page_size, "hidden"⟩])

/-- `ESIndex.get_all_docs`: first the unguarded `indices.refresh` — a
failure there escapes to the caller before anything is yielded or any
search issued — then a missing query defaults to `match_all` and the paging
loop runs from `count = 0`, `offset = 0`. -/
def get_all_docs (refresh : RefreshResp) (srv : SearchRequest → SearchResp α)
    (index_name : String) (query : Option Query) (page_size : Nat)
    (fuel : Nat) : RunResult α :=
  match refresh with
  | .raised e => ⟨[], [], none, some e, true⟩
  | .ok =>
      getAllDocsLoop srv index_name (query.getD Query.matchAll) page_size fuel 0 0 [] []

/-- The well-behaved index of claim C1: its refresh succeeds
(`RefreshResp.ok` is supplied at the use sites) and its search responses
report the fixed total `stored.length` and return the stored hits for each
`from/size` window. -/
def storedServe (stored : List α) : SearchRequest → SearchResp α :=
  fun r => SearchResp.ok ((stored.drop r.from_).take r.size) stored.length

theorem getAllDocsLoop_stored (stored : List α) (idx : String) (q : Query)
    (ps : Nat) (hps : 0 < ps) :
    ∀ fuel offset acc reqs, offset ≤ stored.length →
      stored.length - offset < fuel →
      ∃ reqs', getAllDocsLoop (storedServe stored) idx q ps fuel offset offset acc reqs
        = ⟨acc ++ stored.drop offset, reqs', none, none, true⟩ := by
  intro fuel
  induction fuel with
  | zero => intro offset acc reqs _ h; omega
  | succ fuel ih =>
    intro offset acc reqs hoff _
    have hdl : (stored.drop offset).length = stored.length - offset :=
      List.length_drop offset stored
    have htl : ((stored.drop offset).take ps).length = min ps (stored.length - offset) := by
      rw [List.length_take, hdl]
    by_cases hstop : stored.length ≤ offset + ((stored.drop offset).take ps).length
    · refine ⟨reqs ++ [⟨idx, q, offset, ps, "hidden"⟩], ?_⟩
      have hlen : (stored.drop offset).length ≤ ps := by omega
      have htake : (stored.drop offset).take ps = stored.drop offset :=
        List.take_of_length_le hlen
      simp only [getAllDocsLoop, storedServe, htake]
      rw [if_pos (by omega)]
    · push_neg at hstop
      have hlen : ((stored.drop offset).take ps).length = ps := by omega
      have hdrop : (stored.drop offset).take ps ++ stored.drop (offset + ps)
          = stored.drop offset := List.drop_take_append_drop stored offset ps
      obtain ⟨reqs', hrun⟩ := ih (offset + ps)
        (acc ++ (stored.drop offset).take ps)
        (reqs ++ [⟨idx, q, offset, ps, "hidden"⟩]) (by omega) (by omega)
      refine ⟨reqs', ?_⟩
      simp only [getAllDocsLoop, storedServe]
      rw [if_neg (by omega)]
      rw [hlen]
      rw [hrun, List.append_assoc, hdrop]

/-- C1 (amended): against an index whose refresh succeeds and whose search
responses report the fixed total `T = stored.length` and serve the stored
hits for each `from/size` window, `get_all_docs` with a positive page size
terminates and yields exactly the stored records — `T` records, each
exactly once, in order, with no duplicates at page boundaries — for every
query, with nothing logged and nothing escaping. -/
theorem get_all_docs_yields_exactly_total (stored : List α) (idx : String)
    (q : Option Query) (ps : Nat) (hps : 0 < ps) :
    ∃ reqs, get_all_docs RefreshResp.ok (storedServe stored) idx q ps
        (stored.length + 1)
      = ⟨stored, reqs, none, none, true⟩ := by
  obtain ⟨reqs', h⟩ := getAllDocsLoop_stored stored idx (q.getD Query.matchAll) ps hps
    (stored.length + 1) 0 [] [] (Nat.zero_le _) (by omega)
  exact ⟨reqs', by simpa [get_all_docs] using h⟩

/-- C1 witness: a three-record index paged with `page_size = 2` yields the
three records across two pages. -/
theorem get_all_docs_yields_exactly_total_witness :
    0 < 2 ∧ ∃ reqs, get_all_docs RefreshResp.ok (storedServe [10, 20, 30])
        "idx" none 2 4
      = ⟨[10, 20, 30], reqs, none, none, true⟩ :=
  ⟨by decide, get_all_docs_yields_exactly_total [10, 20, 30] "idx" none 2 (by decide)⟩

theorem getAllDocsLoop_stored_ps_zero (stored : List α) (idx : String) (q : Query)
    (hne : stored ≠ []) :
    ∀ fuel reqs, getAllDocsLoop (storedServe stored) idx q 0 fuel 0 0 [] reqs
      = ⟨[], reqs ++ List.replicate fuel ⟨idx, q, 0, 0, "hidden"⟩, none, none, false⟩ := by
  have hlen : 0 < stored.length := List.length_pos.mpr hne
  intro fuel
  induction fuel with
  | zero => intro reqs; simp [getAllDocsLoop]
  | succ fuel ih =>
    intro reqs
    simp only [getAllDocsLoop, storedServe]
    rw [if_neg (by
      simp only [List.take_zero, List.length_nil, Nat.add_zero, Nat.le_zero]
      omega)]
    simp only [List.take_zero, List.length_nil, Nat.add_zero, List.append_nil]
    rw [ih]
    simp [List.replicate_succ, List.append_assoc]

/-- C1 counterexample: the claim quantifies over every `page_size`, but with
`page_size = 0` against a well-behaved one-record index (`total = 1`) the
loop makes no progress: after 1000 iterations it has yielded no records and
has not terminated (`getAllDocsLoop_stored_ps_zero` shows the same for any
number of iterations), so it never yields the reported total of 1 record. -/
theorem get_all_docs_page_size_zero_diverges :
    get_all_docs RefreshResp.ok (storedServe [0]) ".x" none 0 1000
      = ⟨[], List.replicate 1000 ⟨".x", Query.matchAll, 0, 0, "hidden"⟩,
          none, none, false⟩ := by
  have h := getAllDocsLoop_stored_ps_zero [0] ".x" Query.matchAll (by decide) 1000 []
  rw [List.nil_append] at h
  exact h

theorem getAllDocsLoop_hidden (srv : SearchRequest → SearchResp α) (idx : String)
    (q : Query) (ps : Nat) :
    ∀ fuel count offset acc reqs,
      (∀ r ∈ reqs, r.expand_wildcards = "hidden") →
      ∀ r ∈ (getAllDocsLoop srv idx q ps fuel count offset acc reqs).requests,
        r.expand_wildcards = "hidden" := by
  intro fuel
  induction fuel with
  | zero => intro count offset acc reqs hreqs r hr; exact hreqs r hr
  | succ fuel ih =>
    intro count offset acc reqs hreqs r hr
    have hext : ∀ s ∈ reqs ++ [(⟨idx, q, offset, ps, "hidden"⟩ : SearchRequest)],
        s.expand_wildcards = "hidden" := by
      intro s hs
      rcases List.mem_append.mp hs with h | h
      · exact hreqs s h
      · have hs' : s = ⟨idx, q, offset, ps, "hidden"⟩ := List.mem_singleton.mp h
        rw [hs']
    simp only [getAllDocsLoop] at hr
    cases hsrv : srv ⟨idx, q, offset, ps, "hidden"⟩ with
    | ok hits total =>
      rw [hsrv] at hr
      simp only at hr
      split at hr
      · exact hext r hr
      · exact ih _ _ _ _ hext r hr
    | apiError status_code body =>
      rw [hsrv] at hr
      exact hext r hr
    | transportError e =>
      rw [hsrv] at hr
      exact hext r hr

/-- C2 (amended): every search request issued by `get_all_docs` carries
`expand_wildcards = "hidden"`, for every refresh outcome, server, index
name (whether or not it starts with `.`), query, page size and iteration
bound; the code never switches to `"open"`. -/
theorem get_all_docs_requests_always_hidden (refresh : RefreshResp)
    (srv : SearchRequest → SearchResp α)
    (idx : String) (q : Option Query) (ps fuel : Nat) (r : SearchRequest)
    (hr : r ∈ (get_all_docs refresh srv idx q ps fuel).requests) :
    r.expand_wildcards = "hidden" := by
  cases refresh with
  | raised e => simp [get_all_docs] at hr
  | ok =>
    exact getAllDocsLoop_hidden srv idx (q.getD Query.matchAll) ps fuel 0 0 [] []
      (by intro s hs; cases hs) r hr

/-- C2 witness: a concrete run against index `"idx"` issues the single
request below, and the theorem reports its `expand_wildcards` as
`"hidden"`. -/
theorem get_all_docs_requests_always_hidden_witness :
    (⟨"idx", Query.matchAll, 0, 100, "hidden"⟩ : SearchRequest)
        ∈ (get_all_docs RefreshResp.ok (fun _ => SearchResp.ok ([] : List Nat) 0)
            "idx" none 100 1).requests
      ∧ (⟨"idx", Query.matchAll, 0, 100, "hidden"⟩ : SearchRequest).expand_wildcards
        = "hidden" :=
  ⟨by decide,
    get_all_docs_requests_always_hidden RefreshResp.ok
      (fun _ => SearchResp.ok ([] : List Nat) 0)
      "idx" none 100 1 ⟨"idx", Query.matchAll, 0, 100, "hidden"⟩ (by decide)⟩

/-- C2 counterexample: the claim requires `expand_wildcards = "open"` for an
index whose name does not start with `.` — the first character of `"foo"` is
not `'.'` — but against index `"foo"` the only request issued still carries
`"hidden"`. -/
theorem get_all_docs_nondot_index_still_hidden :
    "foo".data.head? ≠ some '.'
      ∧ (get_all_docs RefreshResp.ok (fun _ => SearchResp.ok ([] : List Nat) 0)
            "foo" none 100 5)
        = ⟨[], [⟨"foo", Query.matchAll, 0, 100, "hidden"⟩], none, none, true⟩
      ∧ ("hidden" : String) ≠ "open" :=
  ⟨by decide, by decide, by decide⟩

/-- C3 counterexample: not every transport error is caught.  A
connection-level failure of the first search call — not an `ApiError`, so
`except ApiError` does not catch it — escapes to the caller with nothing
logged; and a failure of the initial `indices.refresh`, which stands
outside the `try` block, likewise escapes.  In both runs the claim's "no
exception propagates to the caller" fails. -/
theorem get_all_docs_uncaught_transport_error :
    (get_all_docs RefreshResp.ok
        (fun _ => (SearchResp.transportError "connection reset" : SearchResp Nat))
        "idx" none 100 5)
      = ⟨[], [⟨"idx", Query.matchAll, 0, 100, "hidden"⟩], none,
          some "connection reset", true⟩
    ∧ (get_all_docs (RefreshResp.raised "node down")
        (fun _ => SearchResp.ok ([] : List Nat) 0) "idx" none 100 5)
      = ⟨[], [], none, some "node down", true⟩ :=
  ⟨rfl, rfl⟩

/-- C3 (amended): the error handling of `get_all_docs` splits in three.  An
`ApiError` raised by a search call, at any loop state (the loop starts at
`count = 0`, `offset = 0` with nothing accumulated), is logged with its
status code and body and the generator returns cleanly: exactly the records
yielded before the error, nothing escaping.  A connection-level transport
error of a search call is not caught: it escapes to the caller with nothing
logged and no further records yielded.  A failure of the initial unguarded
`indices.refresh` likewise escapes, before any record is yielded or any
search issued. -/
theorem get_all_docs_error_handling_paths (srv : SearchRequest → SearchResp α)
    (idx : String) (q : Query) (ps count offset : Nat) (acc : List α)
    (reqs : List SearchRequest) (fuel status_code : Nat) (body e : String) :
    (srv ⟨idx, q, offset, ps, "hidden"⟩ = SearchResp.apiError status_code body →
      getAllDocsLoop srv idx q ps (fuel + 1) count offset acc reqs
        = ⟨acc, reqs ++ [⟨idx, q, offset, ps, "hidden"⟩],
            some (status_code, body), none, true⟩)
    ∧ (srv ⟨idx, q, offset, ps, "hidden"⟩ = SearchResp.transportError e →
      getAllDocsLoop srv idx q ps (fuel + 1) count offset acc reqs
        = ⟨acc, reqs ++ [⟨idx, q, offset, ps, "hidden"⟩], none, some e, true⟩)
    ∧ get_all_docs (RefreshResp.raised e) srv idx (some q) ps fuel
        = ⟨[], [], none, some e, true⟩ := by
  refine ⟨fun h => ?_, fun h => ?_, rfl⟩
  · simp only [getAllDocsLoop, h]
  · simp only [getAllDocsLoop, h]

/-- C3 witness: a server that answers the first search with a 500 `ApiError`
makes the run terminate at once with the error logged, no records and
nothing escaping. -/
theorem get_all_docs_error_handling_paths_witness :
    getAllDocsLoop
        (fun _ => SearchResp.apiError 500 "boom" : SearchRequest → SearchResp Nat)
        "idx" Query.matchAll 100 1 0 0 [] []
      = ⟨[], [⟨"idx", Query.matchAll, 0, 100, "hidden"⟩], some (500, "boom"),
          none, true⟩ :=
  (get_all_docs_error_handling_paths
    (fun _ => SearchResp.apiError 500 "boom") "idx" Query.matchAll 100 0 0 [] [] 0
    500 "boom" "e").1 rfl

end ES

namespace GCS

/-- Outcome of one attempt of the body of `_api_call`
(`connectors/sources/gcs.py`): the Google client call yields a value, or
raises an `AttributeError` while resolving the resource/method object, or
raises some other exception. -/
inductive CallOutcome (α : Type) where
  | ok : α → CallOutcome α
  | attrError : String → CallOutcome α
  | exc : String → CallOutcome α

/-- What a run of `_api_call` produces: the yielded value or the raised
exception, together with the list of `asyncio.sleep` durations (seconds)
performed between attempts, in order. -/
structure ApiCallResult (α : Type) where
  result : Except String α
  sleeps : List Nat

/-- The `while True` retry loop of `_api_call`.  `attempt` counts the
failures so far and equals the Python `retry_counter` at the head of the
iteration; `remaining = retry_count - attempt`, so the raise condition
`retry_counter > self.retry_count` is `remaining = 0` at a failure.  On a
non-`AttributeError` exception the code increments the counter and sleeps
`DEFAULT_WAIT_MULTIPLIER ** retry_counter = 2 ^ (attempt + 1)` seconds
before retrying; an `AttributeError` is logged and re-raised at once. -/
def apiCallLoop (outcome : Nat → CallOutcome α) :
    Nat → Nat → List Nat → ApiCallResult α
  | 0, attempt, sleeps =>
    match outcome attempt with
    | .ok v => ⟨.ok v, sleeps⟩
    | .attrError msg => ⟨.error msg, sleeps⟩
    | .exc e => ⟨.error e, sleeps⟩
  | r + 1, attempt, sleeps =>
    match outcome attempt with
    | .ok v => ⟨.ok v, sleeps⟩
    | .attrError msg => ⟨.error msg, sleeps⟩
    | .exc _ => apiCallLoop outcome r (attempt + 1) (sleeps ++ [2 ^ (attempt + 1)])

/-- `GoogleCloudStorageDataSource._api_call` with the per-attempt outcomes
given by the oracle `outcome` and the configured `retry_count`. -/
def _api_call (outcome : Nat → CallOutcome α) (retry_count : Nat) : ApiCallResult α :=
  apiCallLoop outcome retry_count 0 []

theorem apiCallLoop_ok (outcome : Nat → CallOutcome α) (errs : Nat → String) (v : α) :
    ∀ n remaining attempt sleeps,
      (∀ i, i < n → outcome (attempt + i) = .exc (errs (attempt + i))) →
      outcome (attempt + n) = .ok v → n ≤ remaining →
      apiCallLoop outcome remaining attempt sleeps
        = ⟨.ok v, sleeps ++ (List.range n).map fun i => 2 ^ (attempt + i + 1)⟩ := by
  intro n
  induction n with
  | zero =>
    intro remaining attempt sleeps _ hok _
    rw [Nat.add_zero] at hok
    cases remaining <;> simp [apiCallLoop, hok]
  | succ n ih =>
    intro remaining attempt sleeps hexc hok hle
    obtain ⟨r, rfl⟩ : ∃ r, remaining = r + 1 :=
      ⟨remaining - 1, by omega⟩
    have h0 : outcome attempt = .exc (errs attempt) := by
      have := hexc 0 (Nat.succ_pos n)
      simpa using this
    have hrec := ih r (attempt + 1) (sleeps ++ [2 ^ (attempt + 1)])
      (fun i hi => by
        have heq : attempt + 1 + i = attempt + (i + 1) := by omega
        rw [heq]
        exact hexc (i + 1) (by omega))
      (by
        have heq : attempt + 1 + n = attempt + (n + 1) := by omega
        rw [heq]
        exact hok)
      (by omega)
    simp only [apiCallLoop, h0]
    rw [hrec, List.append_assoc]
    congr 2
    have hfun : ((fun i => 2 ^ (attempt + 1 + i + 1)) : Nat → Nat)
        = fun i => 2 ^ (attempt + (i + 1) + 1) := by
      funext i
      congr 1
      omega
    rw [hfun]
    rw [List.range_succ_eq_map]
    simp [List.map_map, Function.comp]

theorem apiCallLoop_exhausted (outcome : Nat → CallOutcome α) (errs : Nat → String) :
    ∀ remaining attempt sleeps,
      (∀ i, i ≤ remaining → outcome (attempt + i) = .exc (errs (attempt + i))) →
      apiCallLoop outcome remaining attempt sleeps
        = ⟨.error (errs (attempt + remaining)),
            sleeps ++ (List.range remaining).map fun i => 2 ^ (attempt + i + 1)⟩ := by
  intro remaining
  induction remaining with
  | zero =>
    intro attempt sleeps hexc
    have h0 : outcome attempt = .exc (errs attempt) := by simpa using hexc 0 (by omega)
    simp [apiCallLoop, h0]
  | succ r ih =>
    intro attempt sleeps hexc
    have h0 : outcome attempt = .exc (errs attempt) := by simpa using hexc 0 (by omega)
    have hrec := ih (attempt + 1) (sleeps ++ [2 ^ (attempt + 1)])
      (fun i hi => by
        have heq : attempt + 1 + i = attempt + (i + 1) := by omega
        rw [heq]
        exact hexc (i + 1) (by omega))
    simp only [apiCallLoop, h0]
    rw [hrec, List.append_assoc]
    have harg : attempt + 1 + r = attempt + (r + 1) := by omega
    rw [harg]
    congr 2
    have hfun : ((fun i => 2 ^ (attempt + 1 + i + 1)) : Nat → Nat)
        = fun i => 2 ^ (attempt + (i + 1) + 1) := by
      funext i
      congr 1
      omega
    rw [hfun]
    rw [List.range_succ_eq_map]
    simp [List.map_map, Function.comp]

/-- C8 (amended): `_api_call` retries a call that keeps failing with a
non-`AttributeError` exception: if the first `n ≤ retry_count` attempts fail
and attempt `n` succeeds, the caller gets the value after sleeping
`2 ^ attempt` seconds before each retry numbered `attempt = 1, …, n`; if all
`retry_count + 1` attempts fail, the final exception surfaces to the caller
only then, after the `retry_count` backoff sleeps `2^1, …, 2^retry_count`. -/
theorem api_call_retries_with_backoff (outcome : Nat → CallOutcome α)
    (errs : Nat → String) (v : α) (n retry_count : Nat) :
    ((∀ i, i < n → outcome i = .exc (errs i)) → outcome n = .ok v →
      n ≤ retry_count →
      _api_call outcome retry_count
        = ⟨.ok v, (List.range n).map fun i => 2 ^ (i + 1)⟩)
    ∧ ((∀ i, i ≤ retry_count → outcome i = .exc (errs i)) →
      _api_call outcome retry_count
        = ⟨.error (errs retry_count),
            (List.range retry_count).map fun i => 2 ^ (i + 1)⟩) := by
  constructor
  · intro hexc hok hle
    have h := apiCallLoop_ok outcome errs v n retry_count 0 []
      (fun i hi => by simpa using hexc i hi) (by simpa using hok) hle
    simpa [_api_call] using h
  · intro hexc
    have h := apiCallLoop_exhausted outcome errs retry_count 0 []
      (fun i hi => by simpa using hexc i hi)
    simpa [_api_call] using h

/-- C8 witness: with `retry_count = 3`, a call failing twice then succeeding
sleeps 2 and 4 seconds and returns the value; a call failing on all four
attempts sleeps 2, 4 and 8 seconds and only then raises the last
exception. -/
theorem api_call_retries_with_backoff_witness :
    _api_call (fun i => if i < 2 then CallOutcome.exc "boom" else CallOutcome.ok 7) 3
        = ⟨.ok 7, [2, 4]⟩
      ∧ _api_call (fun _ => (CallOutcome.exc "down" : CallOutcome Nat)) 3
        = ⟨.error "down", [2, 4, 8]⟩ := by
  constructor
  · have h := (api_call_retries_with_backoff
      (fun i => if i < 2 then CallOutcome.exc "boom" else CallOutcome.ok 7)
      (fun _ => "boom") 7 2 3).1
      (by intro i hi; simp [hi]) (by simp) (by omega)
    exact h
  · have h := (api_call_retries_with_backoff
      (fun _ => (CallOutcome.exc "down" : CallOutcome Nat))
      (fun _ => "down") 0 0 3).2 (by intro i _; rfl)
    exact h

/-- C8 counterexample: the claim says an exception surfaces to the caller
only after the retry count is exhausted, but a call that fails with an
`AttributeError` is re-raised immediately: with `retry_count = 3` the error
surfaces with no retry and no backoff sleep at all. -/
theorem api_call_attr_error_no_retry :
    _api_call (fun _ => (CallOutcome.attrError "bad resource" : CallOutcome Nat)) 3
      = ⟨.error "bad resource", []⟩ := rfl

/-- A JSON-ish value as stored in a configuration record: the default
configuration of the GCS source only uses strings, integers and booleans. -/
inductive JVal where
  | str : String → JVal
  | int : Int → JVal
  | bool : Bool → JVal
deriving DecidableEq

/-- One character of `json.dumps` output for a string value: quote,
backslash and the common control characters are escaped. -/
def escapeJsonChar (c : Char) : String :=
  if c = '"' then "\\\""
  else if c = '\\' then "\\\\"
  else if c = '\n' then "\\n"
  else if c = '\r' then "\\r"
  else if c = '\t' then "\\t"
  else String.singleton c

def escapeJson (s : String) : String :=
  String.join (s.data.map escapeJsonChar)

/-- `json.dumps` on a dict whose keys and values are all strings, in
insertion order with the default `", "` / `": "` separators. -/
def jsonDumpsStr (kvs : List (String × String)) : String :=
  "\x7b"
    ++ String.intercalate ", "
        (kvs.map fun kv => "\"" ++ escapeJson kv.1 ++ "\": \"" ++ escapeJson kv.2 ++ "\"")
    ++ "\x7d"

/-- The `default_credentials` dict of `get_default_configuration`; the
`private_key` entry is the content of the bundled PEM fixture file
(`open(DEFAULT_PEM_FILE).read()`), passed in here as `pem`. -/
def defaultCredentials (pem : String) : List (String × String) :=
  [("type", "service_account"),
   ("project_id", "dummy_project_id"),
   ("private_key_id", "abc"),
   ("private_key", pem),
   ("client_email", "123-abc@developer.gserviceaccount.com"),
   ("client_id", "123-abc.apps.googleusercontent.com"),
   ("auth_uri", "https://accounts.google.com/o/oauth2/auth"),
   ("token_uri", "http://localhost:443/token")]

def DEFAULT_RETRY_COUNT : Nat := 3

/-- `GoogleCloudStorageDataSource.get_default_configuration`, as the
association list `field name → record`, each record itself the association
list of its `value`, `label` and `type` entries in source order. -/
def get_default_configuration (pem : String) :
    List (String × List (String × JVal)) :=
  [("service_account_credentials",
    [("value", JVal.str (jsonDumpsStr (defaultCredentials pem))),
     ("label", JVal.str "JSON string for Google cloud service account"),
     ("type", JVal.str "str")]),
   ("connector_name",
    [("value", JVal.str "Google Cloud Storage Connector"),
     ("label", JVal.str "Friendly name for the connector"),
     ("type", JVal.str "str")]),
   ("retry_count",
    [("value", JVal.int (DEFAULT_RETRY_COUNT : Int)),
     ("label", JVal.str "Retry count for failed requests"),
     ("type", JVal.str "int")]),
   ("enable_content_extraction",
    [("value", JVal.bool true),
     ("label", JVal.str "Flag to check if content extraction is enabled or not"),
     ("type", JVal.str "bool")])]

/-- C9: every field of `get_default_configuration()` maps to a record that
contains the keys `value`, `label` and `type`, and every `type` is one of
`str`, `int`, `bool`, `list`. -/
theorem get_default_configuration_fields (pem : String)
    (f : String × List (String × JVal)) (hf : f ∈ get_default_configuration pem) :
    (f.2.lookup "value").isSome = true ∧ (f.2.lookup "label").isSome = true
      ∧ ∃ t, f.2.lookup "type" = some (JVal.str t)
          ∧ t ∈ ["str", "int", "bool", "list"] := by
  simp only [get_default_configuration, List.mem_cons, List.not_mem_nil, or_false] at hf
  rcases hf with rfl | rfl | rfl | rfl
  · exact ⟨rfl, rfl, "str", rfl, by simp⟩
  · exact ⟨rfl, rfl, "str", rfl, by simp⟩
  · exact ⟨rfl, rfl, "int", rfl, by simp⟩
  · exact ⟨rfl, rfl, "bool", rfl, by simp⟩

/-- C9 witness: the `retry_count` field of the default configuration (for a
concrete PEM content) carries the three keys with type `int`. -/
theorem get_default_configuration_fields_witness :
    ∃ t, (("retry_count",
        [("value", JVal.int (DEFAULT_RETRY_COUNT : Int)),
         ("label", JVal.str "Retry count for failed requests"),
         ("type", JVal.str "int")]) : String × List (String × JVal)).2.lookup "type"
        = some (JVal.str t) ∧ t ∈ ["str", "int", "bool", "list"] :=
  (get_default_configuration_fields "PEM" _ (by simp [get_default_configuration])).2.2

/-- Index of the last occurrence of `c`, or `-1` when absent — Python's
`str.rfind` restricted to a single-character needle. -/
def rfind (c : Char) : List Char → Int
  | [] => -1
  | x :: xs =>
    let r := rfind c xs
    if 0 ≤ r then r + 1 else if x = c then 0 else -1

/-- The extension part of `os.path.splitext` (posix flavour): the suffix
from the last `.` onward, provided that dot lies after the last `/` and
some character strictly between the last `/` and that dot is not itself a
dot (Python scans `filenameIndex = sepIndex + 1, …, dotIndex - 1` for the
first non-dot character; we express the scan as an existence check over all
positions, which is equivalent); otherwise the empty extension. -/
def splitextExt (p : List Char) : List Char :=
  let sepIndex := rfind '/' p
  let dotIndex := rfind '.' p
  if decide (sepIndex < dotIndex)
      && (List.range p.length).any fun j =>
            decide (sepIndex < (j : Int)) && decide ((j : Int) < dotIndex)
              && decide (p[j]? ≠ some '.')
  then p.drop dotIndex.toNat
  else []

/-- The fields of the prepared blob document that `get_content` reads:
`blob["size"]` (already converted by `int(...)`), `blob["name"]`,
`blob["id"]`, `blob["_timestamp"]` and `blob["bucket_name"]`. -/
structure Blob where
  id : String
  name : String
  size : Nat
  timestamp : String
  bucket_name : String
deriving DecidableEq

/-- The content document built by `get_content`: `_id`, `_timestamp` and
the base64 `_attachment`. -/
structure ContentDoc where
  id : String
  timestamp : String
  attachment : String
deriving DecidableEq

def DEFAULT_FILE_SIZE_LIMIT : Nat := 10485760

/-- `GoogleCloudStorageDataSource.get_content`.  `tika` is the
`TIKA_SUPPORTED_FILETYPES` set from `connectors/utils.py` (a module not in
this tree), kept as a parameter; `downloaded` is the stripped base64 text
the download-and-convert pipeline produces for this blob, also kept
abstract — the claim only concerns the skip conditions and the shape of the
returned document. -/
def get_content (tika : List String) (enable_content_extraction : Bool)
    (blob : Blob) (downloaded : String) (doit : Bool) : Option ContentDoc :=
  if ¬(enable_content_extraction = true ∧ doit = true ∧ blob.size ≠ 0) then none
  else if (⟨splitextExt blob.name.data⟩ : String) ∉ tika then none
  else if DEFAULT_FILE_SIZE_LIMIT < blob.size then none
  else some ⟨blob.id, blob.timestamp, downloaded⟩

/-- C10: `get_content` returns `None` exactly when `doit` is falsy, content
extraction is disabled, the blob size is 0, the blob's extension is not in
the Tika-supported set, or the size exceeds 10485760 bytes; in every other
case it returns the document with the keys `_id`, `_timestamp` and
`_attachment`. -/
theorem get_content_skips_or_returns_document (tika : List String)
    (enable_content_extraction : Bool) (blob : Blob) (downloaded : String)
    (doit : Bool) :
    get_content tika enable_content_extraction blob downloaded doit
      = if enable_content_extraction = true ∧ doit = true ∧ blob.size ≠ 0
            ∧ (⟨splitextExt blob.name.data⟩ : String) ∈ tika
            ∧ blob.size ≤ DEFAULT_FILE_SIZE_LIMIT
        then some ⟨blob.id, blob.timestamp, downloaded⟩
        else none := by
  by_cases hC : enable_content_extraction = true ∧ doit = true ∧ blob.size ≠ 0
      ∧ (⟨splitextExt blob.name.data⟩ : String) ∈ tika
      ∧ blob.size ≤ DEFAULT_FILE_SIZE_LIMIT
  · obtain ⟨h1, h2, h3, h4, h5⟩ := hC
    simp only [get_content]
    rw [if_neg (fun hn => hn ⟨h1, h2, h3⟩), if_neg (fun hn => hn h4),
      if_neg (by omega), if_pos ⟨h1, h2, h3, h4, h5⟩]
  · by_cases h1 : enable_content_extraction = true ∧ doit = true ∧ blob.size ≠ 0
    · by_cases h2 : (⟨splitextExt blob.name.data⟩ : String) ∈ tika
      · have h3 : DEFAULT_FILE_SIZE_LIMIT < blob.size := by
          rcases h1 with ⟨ha, hb, hc⟩
          by_contra hle
          push_neg at hle
          exact hC ⟨ha, hb, hc, h2, hle⟩
        simp only [get_content]
        rw [if_neg (fun hn => hn h1), if_neg (fun hn => hn h2), if_pos h3,
          if_neg hC]
      · simp only [get_content]
        rw [if_neg (fun hn => hn h1), if_pos h2, if_neg hC]
    · simp only [get_content]
      rw [if_pos h1, if_neg hC]

end GCS


namespace Byoc

/-- A JSON value, used for configuration values, feature documents and
filtering blocks of the connector data model (§3 of the specification). -/
inductive J where
  | obj : List (String × J) → J
  | arr : List J → J
  | str : String → J
  | num : Int → J
  | bool : Bool → J

/-- Dict read: the value stored under a key, if any. -/
def getKey (kvs : List (String × J)) (k : String) : Option J :=
  match kvs with
  | [] => none
  | (k', v) :: rest => if k' = k then some v else getKey rest k

/-- Dict write with Python semantics: an existing key keeps its position and
gets the new value, a new key is appended. -/
def setKey (kvs : List (String × J)) (k : String) (v : J) : List (String × J) :=
  match kvs with
  | [] => [(k, v)]
  | (k', v') :: rest => if k' = k then (k, v) :: rest else (k', v') :: setKey rest k v

theorem getKey_setKey_self (kvs : List (String × J)) (k : String) (v : J) :
    getKey (setKey kvs k v) k = some v := by
  induction kvs with
  | nil => simp [setKey, getKey]
  | cons kv rest ih =>
    obtain ⟨k', v'⟩ := kv
    by_cases h : k' = k
    · simp [setKey, getKey, h]
    · simp [setKey, getKey, h, ih]

theorem getKey_setKey_other (kvs : List (String × J)) (k : String) (v : J)
    (k₂ : String) (h : k ≠ k₂) :
    getKey (setKey kvs k v) k₂ = getKey kvs k₂ := by
  induction kvs with
  | nil => simp [setKey, getKey, h]
  | cons kv rest ih =>
    obtain ⟨k', v'⟩ := kv
    by_cases hk : k' = k
    · subst hk
      simp [setKey, getKey, h]
    · simp [setKey, getKey, hk, ih]

/-- Modelled from the spec: `SyncJob.transform_filtering` lives in
`connectors/byoc.py`, which is not part of this tree (only its tests are).
Specification §4.4: value-lifting
`advanced_snippet → advanced_snippet.value || {}`, with the default
`{advanced_snippet: {}, rules: []}` when the input is missing (null) or
empty.  The input is a dict or null; the lifted value is the `value` entry
of the `advanced_snippet` dict, or `{}` when `advanced_snippet` is missing
or has no `value` entry. -/
def transform_filtering (filtering : Option (List (String × J))) : J :=
  match filtering with
  | none => J.obj [("advanced_snippet", J.obj []), ("rules", J.arr [])]
  | some kvs =>
    if kvs.isEmpty then J.obj [("advanced_snippet", J.obj []), ("rules", J.arr [])]
    else
      J.obj (setKey kvs "advanced_snippet"
        (match getKey kvs "advanced_snippet" with
         | some (J.obj skvs) => (getKey skvs "value").getD (J.obj [])
         | _ => J.obj []))

/-- C5: for every value `V`, `transform_filtering` maps an input whose
`advanced_snippet.value` is `V` to an output whose `advanced_snippet` is
`V`, with every other key — in particular the `rules` list — preserved, and
maps an empty or null input to `{advanced_snippet: {}, rules: []}`. -/
theorem transform_filtering_lifts_value (V : J) (kvs : List (String × J))
    (svs : List (String × J))
    (hsnip : getKey kvs "advanced_snippet" = some (J.obj svs))
    (hval : getKey svs "value" = some V)
    (hne : kvs.isEmpty = false) :
    transform_filtering (some kvs) = J.obj (setKey kvs "advanced_snippet" V)
      ∧ getKey (setKey kvs "advanced_snippet" V) "advanced_snippet" = some V
      ∧ getKey (setKey kvs "advanced_snippet" V) "rules" = getKey kvs "rules"
      ∧ transform_filtering none
        = J.obj [("advanced_snippet", J.obj []), ("rules", J.arr [])]
      ∧ transform_filtering (some [])
        = J.obj [("advanced_snippet", J.obj []), ("rules", J.arr [])] := by
  refine ⟨?_, getKey_setKey_self kvs "advanced_snippet" V,
    getKey_setKey_other kvs "advanced_snippet" V "rules" (by decide), rfl, rfl⟩
  simp only [transform_filtering, hne, Bool.false_eq_true, if_false, hsnip, hval,
    Option.getD_some]

/-- C5 witness: the concrete lifting of the specification's scenario 1:
`{"advanced_snippet": {"value": {"query": {}}}, "rules": []}` becomes
`{"advanced_snippet": {"query": {}}, "rules": []}`. -/
theorem transform_filtering_lifts_value_witness :
    transform_filtering (some
        [("advanced_snippet", J.obj [("value", J.obj [("query", J.obj [])])]),
         ("rules", J.arr [])])
      = J.obj (setKey
          [("advanced_snippet", J.obj [("value", J.obj [("query", J.obj [])])]),
           ("rules", J.arr [])] "advanced_snippet" (J.obj [("query", J.obj [])])) :=
  (transform_filtering_lifts_value (J.obj [("query", J.obj [])])
    [("advanced_snippet", J.obj [("value", J.obj [("query", J.obj [])])]),
     ("rules", J.arr [])]
    [("value", J.obj [("query", J.obj [])])] rfl rfl rfl).1

/-- The four feature flags of specification §4.3. -/
inductive Flag where
  | basic_rules_new
  | advanced_rules_new
  | basic_rules_old
  | advanced_rules_old
deriving DecidableEq

/-- Walk a key path through nested objects; `none` as soon as a key is
missing or the current value is not an object. -/
def nestedGet (doc : J) (keys : List String) : Option J :=
  match keys with
  | [] => some doc
  | k :: rest =>
    match doc with
    | J.obj kvs =>
      match getKey kvs k with
      | some v => nestedGet v rest
      | none => none
    | _ => none

/-- Modelled from the spec: `Features._nested_feature_enabled` of
`connectors/byoc.py` (not in this tree).  Specification §4.3: a flag is
read at its key path in the feature document and a missing path anywhere
returns the configurable default.  The configured paths hold booleans; a
value of any other shape is treated like a missing path. -/
def nested_feature_enabled (doc : Option J) (keys : List String)
    (default : Bool) : Bool :=
  match doc with
  | none => default
  | some d =>
    match nestedGet d keys with
    | some (J.bool b) => b
    | _ => default

/-- The fixed path mapping of §4.3: `new` flags read
`sync_rules.{basic|advanced}.enabled`, `old` flags read `filtering_rules`
and `filtering_advanced_config`. -/
def flagPath : Flag → List String
  | .basic_rules_new => ["sync_rules", "basic", "enabled"]
  | .advanced_rules_new => ["sync_rules", "advanced", "enabled"]
  | .basic_rules_old => ["filtering_rules"]
  | .advanced_rules_old => ["filtering_advanced_config"]

/-- Modelled from the spec: `Features.feature_enabled` — the flag's path
looked up with default `false`. -/
def feature_enabled (doc : Option J) (flag : Flag) : Bool :=
  nested_feature_enabled doc (flagPath flag) false

/-- Modelled from the spec: `Features.sync_rules_enabled()` is the OR over
all four flags. -/
def sync_rules_enabled (doc : Option J) : Bool :=
  [Flag.basic_rules_new, Flag.advanced_rules_new, Flag.basic_rules_old,
   Flag.advanced_rules_old].any (feature_enabled doc)

/-- C6: for every features document, `sync_rules_enabled()` equals the OR
of the four flags, and `feature_enabled` returns `false` for any flag whose
configured path is missing from the document — including a null document,
for which every path is missing. -/
theorem sync_rules_enabled_or_of_flags (doc : Option J) :
    (sync_rules_enabled doc
      = (feature_enabled doc .basic_rules_new
          || feature_enabled doc .advanced_rules_new
          || feature_enabled doc .basic_rules_old
          || feature_enabled doc .advanced_rules_old))
    ∧ ∀ flag, (doc.bind fun d => nestedGet d (flagPath flag)) = none →
        feature_enabled doc flag = false := by
  constructor
  · simp [sync_rules_enabled, List.any, Bool.or_assoc]
  · intro flag h
    cases doc with
    | none => rfl
    | some d =>
      simp only [Option.some_bind] at h
      simp [feature_enabled, nested_feature_enabled, h]

/-- C6 witness: on the empty feature document the `basic_rules_new` path is
missing and the flag is reported disabled. -/
theorem sync_rules_enabled_or_of_flags_witness :
    feature_enabled (some (J.obj [])) Flag.basic_rules_new = false :=
  (sync_rules_enabled_or_of_flags (some (J.obj []))).2 Flag.basic_rules_new rfl

/-- The connector status enum of §3, serialized in lower case. -/
inductive Status where
  | created
  | needs_configuration
  | configured
  | connected
  | error
deriving DecidableEq

/-- Modelled from the spec: the derived `status` property of `Connector` in
`connectors/byoc.py` (not in this tree).  Specification §4.5: "If any
configured field has null value ⇒ needs_configuration (overrides any stored
status).  Else returns stored status."  A configuration is the mapping
field → value, where a null value is `none`. -/
def connectorStatus (configuration : List (String × Option J))
    (stored : Status) : Status :=
  if configuration.any (fun kv => kv.2.isNone) then Status.needs_configuration
  else stored

/-- C7 (amended): the derived status is `needs_configuration` iff some
declared configuration field has a null value or the stored status is
itself `needs_configuration`; when no field is null the stored status is
returned unchanged. -/
theorem connector_status_derivation (configuration : List (String × Option J))
    (stored : Status) :
    (connectorStatus configuration stored = Status.needs_configuration
      ↔ (∃ kv ∈ configuration, kv.2 = none)
        ∨ stored = Status.needs_configuration)
    ∧ ((∀ kv ∈ configuration, kv.2 ≠ none) →
        connectorStatus configuration stored = stored) := by
  by_cases h : configuration.any (fun kv => kv.2.isNone) = true
  · have hex : ∃ kv ∈ configuration, kv.2 = none := by
      obtain ⟨kv, hkv, hnone⟩ := List.any_eq_true.mp h
      exact ⟨kv, hkv, Option.isNone_iff_eq_none.mp hnone⟩
    constructor
    · rw [connectorStatus, if_pos h]
      exact ⟨fun _ => Or.inl hex, fun _ => rfl⟩
    · intro hall
      obtain ⟨kv, hkv, hnone⟩ := hex
      exact absurd hnone (hall kv hkv)
  · have hnone : ∀ kv ∈ configuration, kv.2 ≠ none := by
      intro kv hkv
      by_contra hn
      exact h (List.any_eq_true.mpr ⟨kv, hkv, Option.isNone_iff_eq_none.mpr hn⟩)
    constructor
    · rw [connectorStatus, if_neg h]
      constructor
      · intro hs
        exact Or.inr hs
      · rintro (⟨kv, hkv, hn⟩ | hs)
        · exact absurd hn (hnone kv hkv)
        · exact hs
    · intro _
      rw [connectorStatus, if_neg h]

/-- C7 witness: with one non-null field and stored status `created`, the
derived status is the stored one. -/
theorem connector_status_derivation_witness :
    connectorStatus [("cool", some (J.str "foo"))] Status.created
      = Status.created :=
  (connector_status_derivation [("cool", some (J.str "foo"))] Status.created).2
    (by
      intro kv hkv
      have h : kv = ("cool", some (J.str "foo")) := List.mem_singleton.mp hkv
      rw [h]
      exact fun hn => Option.noConfusion hn)

/-- C7 counterexample: the claim's "only if" direction fails when the
persisted record itself stores `needs_configuration` and no declared field
is null: the derived status is `needs_configuration` although no field has
a null value. -/
theorem connector_status_stored_needs_configuration :
    connectorStatus [("cool", some (J.str "foo"))] Status.needs_configuration
      = Status.needs_configuration
    ∧ ([(("cool" : String), (some (J.str "foo") : Option J))].any
        fun kv => kv.2.isNone) = false :=
  ⟨rfl, rfl⟩

end Byoc

namespace Byoei

/-- The enumerated bulk options of specification §4.6: the bounded-pool
budget for downloads and the bulk batch size. -/
structure BulkOptions where
  concurrent_downloads : Nat
  chunk_size : Nat

/-- `Data.tweak_bulk_options` of `connectors/tests/test_byoc.py`: the test
Source lowers the download budget to 3 and leaves the other options
alone. -/
def dataTweakBulkOptions (options : BulkOptions) : BulkOptions :=
  ⟨3, options.chunk_size⟩

/-- One scheduling event of the download pool: a download starts
(acquiring the semaphore) or finishes (releasing it). -/
inductive Ev where
  | acquire
  | release
deriving DecidableEq

/-- Modelled from the spec: the bulk ingestion coordinator lives in
`connectors/byoei.py`, which is not part of this tree.  Specification
§4.6/§5 schedule each `download_fn` on a bounded pool guarded by a
semaphore of `concurrent_downloads` permits: a download can only start
while fewer than `cap` are outstanding (the producer blocks on the
semaphore otherwise), and a finish requires an outstanding download.
`step` maps the outstanding count over one event, `none` when the event is
not enabled. -/
def step (cap n : Nat) : Ev → Option Nat
  | .acquire => if n < cap then some (n + 1) else none
  | .release => if 0 < n then some (n - 1) else none

/-- Run a whole event trace from `n` outstanding downloads; `some` is the
final outstanding count of a schedulable trace. -/
def runTrace (cap : Nat) : Nat → List Ev → Option Nat
  | n, [] => some n
  | n, e :: es =>
    match step cap n e with
    | some m => runTrace cap m es
    | none => none

theorem runTrace_le (cap : Nat) :
    ∀ evs n m, n ≤ cap → runTrace cap n evs = some m → m ≤ cap := by
  intro evs
  induction evs with
  | nil =>
    intro n m hn h
    simp only [runTrace] at h
    cases h
    omega
  | cons e es ih =>
    intro n m hn h
    cases e with
    | acquire =>
      simp only [runTrace, step] at h
      by_cases hlt : n < cap
      · rw [if_pos hlt] at h
        exact ih (n + 1) m (by omega) h
      · rw [if_neg hlt] at h
        cases h
    | release =>
      simp only [runTrace, step] at h
      by_cases hpos : 0 < n
      · rw [if_pos hpos] at h
        exact ih (n - 1) m (by omega) h
      · rw [if_neg hpos] at h
        cases h

theorem runTrace_take (cap : Nat) :
    ∀ evs n m, runTrace cap n evs = some m →
      ∀ k, ∃ p, runTrace cap n (evs.take k) = some p := by
  intro evs
  induction evs with
  | nil =>
    intro n m _ k
    exact ⟨n, by simp [runTrace]⟩
  | cons e es ih =>
    intro n m h k
    cases k with
    | zero => exact ⟨n, rfl⟩
    | succ k =>
      simp only [runTrace] at h
      cases hs : step cap n e with
      | none => rw [hs] at h; cases h
      | some n' =>
        rw [hs] at h
        obtain ⟨p, hp⟩ := ih n' m h k
        exact ⟨p, by simp only [List.take_succ_cons, runTrace, hs]; exact hp⟩

/-- C4: spec-modelled concurrency contract.  For a run of the bulk
coordinator whose options come from the test Source's
`tweak_bulk_options` (download budget 3), every schedulable trace of
download start/finish events keeps the number of outstanding `download_fn`
invocations at most 3 at every instant: each prefix of the trace is
schedulable and its outstanding count is bounded by 3. -/
theorem bulk_concurrency_cap (cs : Nat) (evs : List Ev) (n : Nat)
    (hrun : runTrace (dataTweakBulkOptions ⟨10, cs⟩).concurrent_downloads 0 evs
      = some n) :
    ∀ k, ∃ m, runTrace (dataTweakBulkOptions ⟨10, cs⟩).concurrent_downloads 0
        (evs.take k) = some m ∧ m ≤ 3 := by
  intro k
  obtain ⟨m, hm⟩ := runTrace_take
    (dataTweakBulkOptions ⟨10, cs⟩).concurrent_downloads evs 0 n hrun k
  exact ⟨m, hm, runTrace_le (dataTweakBulkOptions ⟨10, cs⟩).concurrent_downloads
    (evs.take k) 0 m (by omega) hm⟩

/-- C4 witness: a trace that saturates the pool — three starts, then
finishes — stays at 3 outstanding downloads at its third instant. -/
theorem bulk_concurrency_cap_witness :
    ∃ m, runTrace (dataTweakBulkOptions ⟨10, 500⟩).concurrent_downloads 0
        ([Ev.acquire, Ev.acquire, Ev.acquire, Ev.release, Ev.release,
          Ev.release].take 3) = some m ∧ m ≤ 3 :=
  bulk_concurrency_cap 500
    [Ev.acquire, Ev.acquire, Ev.acquire, Ev.release, Ev.release, Ev.release]
    0 rfl 3

end Byoei
